import Mathlib

/-!
# Verification of the kinode process kernel against its specification

Shallow embedding of the repository's source files:
* `src/kinode/src/kernel/process.rs` — the per-process instance loop
  (namespace `Proc`): `send_request`, `send_response`,
  `kernel_message_to_process_receive`, `make_response_id_target`, and the
  OnExit enactment of `make_process_loop`.
* `src/src/state.rs` — the persistent state service (namespace `Svc`):
  `handle_request`, the `state_sender` receive-loop guard, and the per-entry
  capability computation of `bootstrap`.
* `src/src/vfs.rs` — the VFS service (namespace `Svc`): `check_caps`, the
  caps gate of `handle_request`, and the `vfs` receive-loop guard.

Machine integers (`u64` ids, byte vectors) are modelled as `Nat` / `List Nat`:
no arithmetic is performed on them, only equality tests and map keys, so no
overflow behaviour is involved.  The `HashMap<u64, _>` of outstanding request
contexts is modelled as an association list with key-unique insert/erase.
Effectful collaborators (the capability oracle, the Ed25519 verifier, the
random-number generator, timers) are passed in as explicit function
parameters or draw streams, mirroring exactly the points where the source
calls out to them.
-/

set_option autoImplicit false

/-- `ProcessId` — triple (name, package, publisher), from `lib::types::core`.
As used throughout `src/`. -/
structure ProcessId where
  processName : String
  packageName : String
  publisher : String
deriving DecidableEq, Repr

/-- Canonical string form `name:package:publisher` (spec §3, §6). -/
def ProcessId.str (p : ProcessId) : String :=
  p.processName ++ ":" ++ p.packageName ++ ":" ++ p.publisher

/-- Split a character list at `':'` (the behaviour of `splitOn ":"` for a
single-character separator, written structurally so it evaluates by
definitional reduction). -/
def splitColonAux : List Char → List Char → List (List Char)
  | [], acc => [acc.reverse]
  | c :: rest, acc =>
    if c = ':' then acc.reverse :: splitColonAux rest []
    else splitColonAux rest (c :: acc)

/-- Modelled from the spec: `ProcessId::from_str` lives in `lib::types`, which
is not under `src/`.  Spec §4.1/§6: parsing fails on wrong arity or empty
segments; three `:`-separated non-empty segments parse back exactly. -/
def ProcessId.fromStr? (s : String) : Option ProcessId :=
  match splitColonAux s.toList [] with
  | [a, b, c] =>
    if a ≠ [] ∧ b ≠ [] ∧ c ≠ [] then
      some ⟨String.mk a, String.mk b, String.mk c⟩
    else none
  | _ => none

/-- `ProcessId::from_str(..).unwrap()` as used in `bootstrap`; the default is
the (unreachable for well-formed manifests) panic stand-in. -/
def ProcessId.fromStrD (s : String) : ProcessId :=
  (ProcessId.fromStr? s).getD ⟨"", "", ""⟩

/-- `Address` = (node, process), from `lib::types::core`. -/
structure Address where
  node : String
  process : ProcessId
deriving DecidableEq, Repr

/-- `Capability` — (issuer address, opaque params string).  Params are
compared byte-for-byte; we keep them as the literal strings the source
builds (e.g. `"\"messaging\""`, serde_json-rendered drive params). -/
structure Capability where
  issuer : Address
  params : String
deriving DecidableEq, Repr

/-- Signature bytes attached to a capability in transit (`Vec<u8>`). -/
abbrev Sig := List Nat

/-- Modelled from the spec: `KERNEL_PROCESS_ID` is declared in `lib::types`,
not under `src/`; `bootstrap` in `src/src/state.rs` pins it to
`kernel:sys:uqbar` via `ProcessId::from_str("kernel:sys:uqbar")`. -/
def kernelProcessId : ProcessId := ⟨"kernel", "sys", "uqbar"⟩

/-- Modelled from the spec: `STATE_PROCESS_ID` (runtime module naming scheme
`<name>:sys:uqbar`, spec §4.6). -/
def stateProcessId : ProcessId := ⟨"state", "sys", "uqbar"⟩

/-- Modelled from the spec: `VFS_PROCESS_ID` (runtime module naming scheme
`<name>:sys:uqbar`, spec §4.7). -/
def vfsProcessId : ProcessId := ⟨"vfs", "sys", "uqbar"⟩

namespace Proc

/-- `LazyLoadBlob` — optional mime type plus bytes. -/
structure LazyLoadBlob where
  mime : Option String
  bytes : List Nat
deriving DecidableEq, Repr

/-- Opaque user context bytes (`Context = Vec<u8>`). -/
abbrev Context := List Nat

/-- `t::Request` from `lib::types::core` as used by `process.rs`. -/
structure Request where
  inherit : Bool
  expectsResponse : Option Nat
  body : List Nat
  metadata : Option String
  capabilities : List (Capability × Sig)
deriving DecidableEq, Repr

/-- `t::Response` from `lib::types::core` as used by `process.rs`. -/
structure Response where
  inherit : Bool
  body : List Nat
  metadata : Option String
  capabilities : List (Capability × Sig)
deriving DecidableEq, Repr

/-- `t::Message` — sum of Request and (Response, Option<Context>). -/
inductive Message where
  | request : Request → Message
  | response : Response × Option Context → Message
deriving DecidableEq, Repr

/-- `t::KernelMessage` — the envelope. -/
structure KernelMessage where
  id : Nat
  source : Address
  target : Address
  rsvp : Option Address
  message : Message
  lazyLoadBlob : Option LazyLoadBlob
deriving DecidableEq, Repr

/-- `t::SendErrorKind`. -/
inductive SendErrorKind where
  | offline
  | timeout
deriving DecidableEq, Repr

/-- `t::SendError`. -/
structure SendError where
  kind : SendErrorKind
  target : Address
  message : Message
  lazyLoadBlob : Option LazyLoadBlob
deriving DecidableEq, Repr

/-- `t::WrappedSendError` — a send error tagged with the original id. -/
structure WrappedSendError where
  id : Nat
  source : Address
  error : SendError
deriving DecidableEq, Repr

/-- `ProcessContext` (process.rs lines 18–24): the predecessor envelope (used
as `prompting_message` at the use sites) and the user context. -/
structure ProcessContext where
  promptingMessage : Option KernelMessage
  context : Option Context
deriving DecidableEq, Repr

/-- One contexts-map entry: `(ProcessContext, timeout task handle)`, the
handle modelled by an abstract timer id. -/
abbrev CtxEntry := ProcessContext × Nat

/-- `contexts: HashMap<u64, (ProcessContext, JoinHandle<()>)>` modelled as an
association list with key-unique insert semantics. -/
abbrev Contexts := List (Nat × CtxEntry)

/-- `HashMap` lookup. -/
def ctxLookup (m : Contexts) (k : Nat) : Option CtxEntry :=
  (m.find? (fun e => e.1 == k)).map (·.2)

/-- `HashMap::contains_key`. -/
def ctxContains (m : Contexts) (k : Nat) : Bool :=
  (ctxLookup m k).isSome

/-- `HashMap::remove` (under the unique-key invariant, removing every pair
with the given key). -/
def ctxErase (m : Contexts) (k : Nat) : Contexts :=
  m.filter (fun e => e.1 != k)

/-- `HashMap::insert` — replaces any previous entry at the key. -/
def ctxInsert (m : Contexts) (k : Nat) (v : CtxEntry) : Contexts :=
  (k, v) :: ctxErase m k

/-- The mutable fields of `ProcessState` that the pure message logic touches
(process.rs lines 26–50).  Channels are modelled by returning the messages
that would be sent on them. -/
structure ProcessState where
  our : Address
  nestedRequest : Option KernelMessage
  currentIncomingMessage : Option KernelMessage
  contexts : Contexts
  lastBlob : Option LazyLoadBlob
deriving DecidableEq, Repr

/-- Helper: keep an optional envelope only when it holds a Request. -/
def requestKM? : Option KernelMessage → Option KernelMessage
  | some km =>
    match km.message with
    | .request _ => some km
    | .response _ => none
  | none => none

/-- `predecessor_request` (process.rs lines 176–188): the current incoming
message if it is a Request, else the nested request if that is a Request,
else none. -/
def predecessorRequest (s : ProcessState) : Option KernelMessage :=
  match requestKM? s.currentIncomingMessage with
  | some km => some km
  | none => requestKM? s.nestedRequest

/-- The fresh-id loop (process.rs lines 195–200): repeatedly draw a random
id until one is found that is not a key of `contexts`.  The random stream is
the explicit `draws` list; `none` models an exhausted stream (the real loop
would keep drawing). -/
def freshId : List Nat → Contexts → Option Nat
  | [], _ => none
  | d :: ds, ctxs => if ctxContains ctxs d then freshId ds ctxs else some d

/-- `request_id` computation (process.rs lines 192–201): reuse the
predecessor's id when `inherit` is set and a predecessor Request exists;
otherwise draw fresh, redrawing on collision with `contexts`. -/
def computeRequestId (s : ProcessState) (inherit : Bool) (draws : List Nat) :
    Option Nat :=
  if inherit ∧ (predecessorRequest s).isSome then
    (predecessorRequest s).map (·.id)
  else
    freshId draws s.contexts

/-- Outgoing blob computation (process.rs lines 205–216): an explicit blob
wins; otherwise, with `inherit`, the predecessor Request's blob; otherwise
none. -/
def computeBlob (s : ProcessState) (inherit : Bool)
    (blob : Option LazyLoadBlob) : Option LazyLoadBlob :=
  match blob with
  | some p => some p
  | none =>
    match inherit with
    | true => (predecessorRequest s).bind (·.lazyLoadBlob)
    | false => none

/-- Result of `send_request`: the updated process state, the envelope handed
to the main event loop, the chosen id, and — when a timeout timer was set —
the `WrappedSendError` that the spawned timer task will inject into the
process's own inbox if it fires (process.rs lines 243–257). -/
structure SendRequestOut where
  state : ProcessState
  kernelMessage : KernelMessage
  requestId : Nat
  timerPayload : Option WrappedSendError
deriving DecidableEq, Repr

/-- `ProcessState::send_request` (process.rs lines 159–304).
`filterCaps` stands for the oracle round-trip `CapMessage::FilterCaps`;
`draws` feeds the random-id loop; `timerId` is the handle of the timeout
task spawned when the request expects a response.  Returns `none` only when
the random stream is exhausted. -/
def sendRequest (filterCaps : List Capability → List (Capability × Sig))
    (s : ProcessState) (fakeSource : Option Address) (target : Address)
    (request : Request) (newContext : Option Context)
    (blob : Option LazyLoadBlob) (draws : List Nat) (timerId : Nat) :
    Option SendRequestOut :=
  let source := fakeSource.getD s.our
  match computeRequestId s request.inherit draws with
  | none => none
  | some requestId =>
    let blob := computeBlob s request.inherit blob
    let caps :=
      if request.capabilities.isEmpty then request.capabilities
      else filterCaps (request.capabilities.map (·.1))
    let request := { request with capabilities := caps }
    let stateAndTimer : ProcessState × Option WrappedSendError :=
      match request.expectsResponse with
      | some _ =>
        ({ s with
            contexts := ctxInsert s.contexts requestId
              (⟨predecessorRequest s, newContext⟩, timerId) },
         some { id := requestId
                source := target
                error := { kind := .timeout
                           target := target
                           message := .request request
                           lazyLoadBlob := blob } })
      | none => (s, none)
    let rsvp : Option Address :=
      match request.expectsResponse, request.inherit,
            s.currentIncomingMessage with
      | some _, _, _ => some s.our
      | none, true, some prompt => prompt.rsvp
      | _, _, _ => none
    some { state := stateAndTimer.1
           requestId := requestId
           timerPayload := stateAndTimer.2
           kernelMessage :=
             { id := requestId
               source := source
               target := target
               rsvp := rsvp
               message := .request request
               lazyLoadBlob := blob } }

/-- `make_response_id_target` (process.rs lines 468–504): id and target of a
response, from the current incoming Request or, when that is a Response,
from the nested request; rsvp overrides the source as target. -/
def makeResponseIdTarget (s : ProcessState) : Option (Nat × Address) :=
  match s.currentIncomingMessage with
  | none => none
  | some cim =>
    match cim.message with
    | .request _ => some (cim.id, cim.rsvp.getD cim.source)
    | .response _ =>
      match s.nestedRequest with
      | none => none
      | some nested => some (nested.id, nested.rsvp.getD nested.source)

/-- `ProcessState::send_response` (process.rs lines 307–365): `none` models
the dropped-Response printout path.  With `inherit` the blob is `last_blob`
(the explicit blob argument is ignored in that case); capabilities are
filtered through the oracle. -/
def sendResponse (filterCaps : List Capability → List (Capability × Sig))
    (s : ProcessState) (response : Response) (blob : Option LazyLoadBlob) :
    Option KernelMessage :=
  match makeResponseIdTarget s with
  | none => none
  | some idTarget =>
    let blob := match response.inherit with
      | true => s.lastBlob
      | false => blob
    let caps := filterCaps (response.capabilities.map (·.1))
    let response := { response with capabilities := caps }
    some { id := idTarget.1
           source := s.our
           target := idTarget.2
           rsvp := none
           message := .response (response, none)
           lazyLoadBlob := blob }

/-- The capability pruning applied on receive (process.rs lines 416–435 and
441–458): a cap is kept unless the envelope comes from a foreign node and
claims a local issuer, in which case it is kept iff `verify` accepts it.
`verify` stands for `pk.verify(rmp_serde::to_vec(&cap), sig)` under the
local Ed25519 public key. -/
def pruneCaps (verify : Capability → Sig → Bool) (ourNode sourceNode : String)
    (caps : List (Capability × Sig)) : List (Capability × Sig) :=
  caps.filter (fun cs =>
    if sourceNode ≠ ourNode ∧ cs.1.issuer.node = ourNode then
      verify cs.1 cs.2
    else
      true)

instance {ε α : Type} [DecidableEq ε] [DecidableEq α] :
    DecidableEq (Except ε α) := fun a b =>
  match a, b with
  | .error e, .error f =>
    if h : e = f then .isTrue (by rw [h])
    else .isFalse (by intro c; cases c; exact h rfl)
  | .error _, .ok _ => .isFalse (by intro c; cases c)
  | .ok _, .error _ => .isFalse (by intro c; cases c)
  | .ok x, .ok y =>
    if h : x = y then .isTrue (by rw [h])
    else .isFalse (by intro c; cases c; exact h rfl)

/-- Result of `kernel_message_to_process_receive`: updated state, the timer
handles aborted during processing, and the value surfaced to the process. -/
structure ReceiveOut where
  state : ProcessState
  abortedTimers : List Nat
  result : Except (SendError × Option Context) (Address × Message)
deriving DecidableEq, Repr

/-- `kernel_message_to_process_receive` (process.rs lines 371–463).
Requests: record `last_blob` and `current_incoming_message`, prune caps.
Responses: consume the matching context if any (aborting its timer and
restoring the prompting message), prune caps.
Errors: consume the matching context if any and surface the error with the
stored user context. -/
def kernelMessageToProcessReceive (verify : Capability → Sig → Bool)
    (s : ProcessState) (res : Except WrappedSendError KernelMessage) :
    ReceiveOut :=
  match res with
  | .error e =>
    match ctxLookup s.contexts e.id with
    | none => ⟨s, [], .error (e.error, none)⟩
    | some entry =>
      ⟨{ s with
          contexts := ctxErase s.contexts e.id
          currentIncomingMessage := entry.1.promptingMessage },
       [entry.2],
       .error (e.error, entry.1.context)⟩
  | .ok km =>
    match km.message with
    | .request req =>
      let s' := { s with
        lastBlob := km.lazyLoadBlob
        currentIncomingMessage := some km }
      let req := { req with
        capabilities :=
          pruneCaps verify s.our.node km.source.node req.capabilities }
      ⟨s', [], .ok (km.source, .request req)⟩
    | .response respCtx =>
      match ctxLookup s.contexts km.id with
      | some entry =>
        let s' := { s with
          contexts := ctxErase s.contexts km.id
          lastBlob := km.lazyLoadBlob
          currentIncomingMessage := some (entry.1.promptingMessage.getD km) }
        let resp := { respCtx.1 with
          capabilities :=
            pruneCaps verify s.our.node km.source.node respCtx.1.capabilities }
        ⟨s', [entry.2], .ok (km.source, .response (resp, entry.1.context))⟩
      | none =>
        let s' := { s with
          lastBlob := km.lazyLoadBlob
          currentIncomingMessage := some km }
        let resp := { respCtx.1 with
          capabilities :=
            pruneCaps verify s.our.node km.source.node respCtx.1.capabilities }
        ⟨s', [], .ok (km.source, .response (resp, none))⟩

/-- `t::OnExit` (spec §3): what happens when the process instance ends. -/
inductive OnExit where
  | exitNone
  | restart
  | requests : List (Address × Request × Option LazyLoadBlob) → OnExit
deriving DecidableEq, Repr

/-- The fields of `t::ProcessMetadata` used by `make_process_loop`. -/
structure ProcessMetadata where
  our : Address
  wasmBytesHandle : String
  witVersion : Nat
  onExit : OnExit
  public : Bool
deriving DecidableEq, Repr

/-- The `t::KernelCommand` variants emitted by `make_process_loop`'s cleanup
(the bodies of the requests it sends are `serde_json` encodings of these). -/
inductive KernelCommand where
  | initializeProcess (id : ProcessId) (wasmBytesHandle : String)
      (witVersion : Option Nat) (onExit : OnExit)
      (initialCapabilities : List Capability) (public : Bool)
  | runProcess (id : ProcessId)
  | killProcess (id : ProcessId)
deriving DecidableEq, Repr

/-- Observable effects of the post-exit cleanup in `make_process_loop`:
terminal printouts, kernel-command requests sent to the main loop (body =
serialized command, self-addressed from the kernel), and OnExit requests
sent to other processes. -/
inductive ExitEffect where
  | print (verbosity : Nat) (content : String)
  | sendCmd (id : Nat) (cmd : KernelCommand) (blob : Option LazyLoadBlob)
  | sendRequestMsg (id : Nat) (target : Address) (req : Request)
      (blob : Option LazyLoadBlob)
deriving DecidableEq, Repr

/-- `GetAll` oracle reply mapped down to bare capabilities
(process.rs lines 643–657). -/
def fetchInitialCaps (getAllReply : List (Capability × Sig)) :
    List Capability :=
  getAllReply.map (fun c => { issuer := c.1.issuer, params := c.1.params })

/-- The OnExit enactment of `make_process_loop` (process.rs lines 681–799).
`has` stands for the oracle `CapMessage::Has` check on this process's cap
set; `isError` is whether `init` returned with error; `rids` is the stream
of random message ids; `wasmBytes` is the component's wasm image.  The
`KillProcess` request of lines 660–678 precedes this in every case and is
modelled by `processCleanup` below. -/
def enactOnExit (has : Capability → Bool) (metadata : ProcessMetadata)
    (isError : Bool) (initialCapabilities : List Capability)
    (wasmBytes : List Nat) (rids : Nat → Nat) : List ExitEffect :=
  match metadata.onExit with
  | .exitNone =>
    [.print 1 ("process " ++ metadata.our.process.str ++
      " had no OnExit behavior")]
  | .restart =>
    if isError then
      [.print 0 ("skipping OnExit::Restart for process " ++
        metadata.our.process.str ++ " due to crash")]
    else
      [.print 1 ("firing OnExit::Restart for process " ++
         metadata.our.process.str),
       .sendCmd (rids 0)
         (.initializeProcess metadata.our.process metadata.wasmBytesHandle
           (some metadata.witVersion) metadata.onExit initialCapabilities
           metadata.public)
         (some { mime := none, bytes := wasmBytes }),
       .sendCmd (rids 1) (.runProcess metadata.our.process) none]
  | .requests reqs =>
    .print 1 ("firing OnExit::Requests for process " ++
      metadata.our.process.str) ::
    (reqs.enum.filterMap (fun ireq =>
      let request := { ireq.2.2.1 with expectsResponse := none }
      if has { issuer := ireq.2.1, params := "\"messaging\"" } then
        some (.sendRequestMsg (rids (2 + ireq.1)) ireq.2.1 request
          ireq.2.2.2)
      else
        none))

/-- Full cleanup after the process returns (process.rs lines 637–799): the
self-addressed `KillProcess`, then the OnExit enactment. -/
def processCleanup (has : Capability → Bool) (metadata : ProcessMetadata)
    (isError : Bool) (initialCapabilities : List Capability)
    (wasmBytes : List Nat) (killId : Nat) (rids : Nat → Nat) :
    List ExitEffect :=
  .sendCmd killId (.killProcess metadata.our.process) none ::
    enactOnExit has metadata isError initialCapabilities wasmBytes rids

end Proc

namespace Svc

/-!
Embedding of `src/src/state.rs` and `src/src/vfs.rs`.  These two files use
an earlier vintage of the core types than `process.rs`: the envelope carries
`payload`/`signed_capabilities` and requests carry `ipc` bytes.  The `ipc`
bytes are always produced/consumed through `serde_json`, so they are
modelled as a sum of the parsed shapes plus a constructor for bytes that
parse as neither (the `BadJson` path).
-/

/-- `Payload` — optional mime plus bytes. -/
structure Payload where
  mime : Option String
  bytes : List Nat
deriving DecidableEq, Repr

/-- `StateError` (state.rs / spec §7). -/
inductive StateError where
  | notFound (processId : ProcessId)
  | badRequest (error : String)
  | badJson (error : String)
  | badBytes (action : String)
  | rocksDBError (action : String) (error : String)
deriving DecidableEq, Repr

/-- `StateAction` — the state service's request ipc. -/
inductive StateAction where
  | setState (p : ProcessId)
  | getState (p : ProcessId)
  | deleteState (p : ProcessId)
  | backup
deriving DecidableEq, Repr

/-- `StateResponse` — the state service's response ipc. -/
inductive StateResponse where
  | setState
  | getState
  | deleteState
  | backup
  | err (e : StateError)
deriving DecidableEq, Repr

/-- `VfsError` (vfs.rs / spec §7). -/
inductive VfsError where
  | noCap (action : String) (path : String)
  | badRequest (error : String)
  | badJson (error : String)
  | parseError (error : String) (path : String)
  | ioError (error : String) (path : String)
  | notFound (path : String)
  | createDirError (path : String) (error : String)
  | capChannelFail (error : String)
deriving DecidableEq, Repr

/-- `SeekFrom` as mirrored in `crate::types`. -/
inductive SeekFrom where
  | fromStart (n : Nat)
  | fromEnd (n : Int)
  | fromCurrent (n : Int)
deriving DecidableEq, Repr

/-- `VfsAction` — every operation of the VFS service (vfs.rs). -/
inductive VfsAction where
  | createDrive
  | createDir
  | createDirAll
  | createFile
  | openFile
  | closeFile
  | write
  | writeAll
  | reWrite
  | writeAt (offset : Nat)
  | append
  | syncAll
  | setLen (len : Nat)
  | removeFile
  | removeDir
  | removeDirAll
  | rename (newPath : String)
  | addZip
  | read
  | readDir
  | readExact (len : Nat)
  | readToEnd
  | readToString
  | seek (sf : SeekFrom)
  | metadata
  | len
  | hash
deriving DecidableEq, Repr

/-- The `{:?}` rendering of a `VfsAction` used in `NoCap` errors
(argument payloads elided; no claim depends on the rendered text). -/
def VfsAction.str : VfsAction → String
  | .createDrive => "CreateDrive"
  | .createDir => "CreateDir"
  | .createDirAll => "CreateDirAll"
  | .createFile => "CreateFile"
  | .openFile => "OpenFile"
  | .closeFile => "CloseFile"
  | .write => "Write"
  | .writeAll => "WriteAll"
  | .reWrite => "ReWrite"
  | .writeAt _ => "WriteAt"
  | .append => "Append"
  | .syncAll => "SyncAll"
  | .setLen _ => "SetLen"
  | .removeFile => "RemoveFile"
  | .removeDir => "RemoveDir"
  | .removeDirAll => "RemoveDirAll"
  | .rename _ => "Rename"
  | .addZip => "AddZip"
  | .read => "Read"
  | .readDir => "ReadDir"
  | .readExact _ => "ReadExact"
  | .readToEnd => "ReadToEnd"
  | .readToString => "ReadToString"
  | .seek _ => "Seek"
  | .metadata => "Metadata"
  | .len => "Len"
  | .hash => "Hash"

/-- `VfsRequest` — path plus action. -/
structure VfsRequest where
  path : String
  action : VfsAction
deriving DecidableEq, Repr

/-- `FileType` (vfs.rs `get_file_type`). -/
inductive FileType where
  | file
  | directory
  | symlink
  | other
deriving DecidableEq, Repr

/-- `DirEntry`. -/
structure DirEntry where
  path : String
  fileType : FileType
deriving DecidableEq, Repr

/-- `FileMetadata`. -/
structure FileMetadata where
  len : Nat
  fileType : FileType
deriving DecidableEq, Repr

/-- `VfsResponse`. -/
inductive VfsResponse where
  | ok
  | read
  | readDir (entries : List DirEntry)
  | readToString (s : String)
  | metadata (m : FileMetadata)
  | len (n : Nat)
  | hash (bytes : List Nat)
  | err (e : VfsError)
deriving DecidableEq, Repr

/-- The parsed shapes of the `ipc` byte field.  `opaque bytes` that parse as
none of the known shapes are kept as `raw` and hit the `BadJson` paths. -/
inductive SvcIpc where
  | stateAction (a : StateAction)
  | stateResponse (r : StateResponse)
  | vfsRequest (r : VfsRequest)
  | vfsResponse (r : VfsResponse)
  | raw (bytes : List Nat)
deriving DecidableEq, Repr

/-- `Request` of this vintage: `inherit`, `expects_response`, `ipc`,
`metadata`. -/
structure SvcRequest where
  inherit : Bool
  expectsResponse : Option Nat
  ipc : SvcIpc
  metadata : Option String
deriving DecidableEq, Repr

/-- `Response` of this vintage. -/
structure SvcResponse where
  inherit : Bool
  ipc : SvcIpc
  metadata : Option String
deriving DecidableEq, Repr

/-- `Message` of this vintage. -/
inductive SvcMessage where
  | request (r : SvcRequest)
  | response (rc : SvcResponse × Option (List Nat))
deriving DecidableEq, Repr

/-- `KernelMessage` of this vintage: `payload` and `signed_capabilities`
instead of `lazy_load_blob`. -/
structure SvcKernelMessage where
  id : Nat
  source : Address
  target : Address
  rsvp : Option Address
  message : SvcMessage
  payload : Option Payload
  signedCapabilities : Option (List (Capability × Sig))
deriving DecidableEq, Repr

/-- Modelled from the spec: `ProcessId::to_hash` lives in `lib::types`, not
under `src/`.  Spec §4.1: a stable hash of the canonical string form, used
as the persistent-store key; modelled as the canonical string itself (an
injective stand-in, adequate because no claim depends on the hash values
themselves). -/
def toHash (p : ProcessId) : String := p.str

/-- The RocksDB instance, modelled as an association list keyed by the
hash string. -/
abbrev Store := List (String × List Nat)

/-- `db.get`. -/
def storeGet (db : Store) (k : String) : Option (List Nat) :=
  (db.find? (fun e => e.1 == k)).map (·.2)

/-- `db.delete` — succeeds whether or not the key is present (RocksDB
`delete` semantics). -/
def storeErase (db : Store) (k : String) : Store :=
  db.filter (fun e => e.1 != k)

/-- `db.put` — overwrites. -/
def storePut (db : Store) (k : String) (v : List Nat) : Store :=
  (k, v) :: storeErase db k

/-- Result of a successful `handle_request` in state.rs: the updated store,
the response sent back to the loop (if an rsvp/expects-response target
exists), and whether a Backup checkpoint was written. -/
structure StateOut where
  store : Store
  response : Option SvcKernelMessage
  backupPerformed : Bool
deriving DecidableEq, Repr

/-- The response envelope built at state.rs lines 215–245: target is the
rsvp if set, else the source process (when a response is expected), else no
response is sent. -/
def stateResponseFor (ourName : String) (km : SvcKernelMessage)
    (expectsResponse : Option Nat) (metadata : Option String)
    (ipc : SvcIpc) (bytes : Option (List Nat)) : Option SvcKernelMessage :=
  let target? : Option Address :=
    match km.rsvp with
    | some t => some t
    | none =>
      match expectsResponse with
      | some _ => some ⟨ourName, km.source.process⟩
      | none => none
  match target? with
  | none => none
  | some target =>
    some { id := km.id
           source := ⟨ourName, stateProcessId⟩
           target := target
           rsvp := none
           message := .response ({ inherit := false, ipc := ipc,
                                   metadata := metadata }, none)
           payload := bytes.map (fun bs =>
             { mime := some "application/octet-stream", bytes := bs })
           signedCapabilities := none }

/-- `handle_request` of state.rs (lines 107–248).  Filesystem effects of
`Backup` are abstracted to the `backupPerformed` flag; the store is a pure
map so the RocksDB error paths are unreachable in the model. -/
def stateHandleRequest (ourName : String) (km : SvcKernelMessage)
    (db : Store) : Except StateError StateOut :=
  match km.message with
  | .response _ => .error (.badRequest "not a request")
  | .request req =>
    match req.ipc with
    | .stateAction action =>
      match action with
      | .setState pid =>
        match km.payload with
        | none => .error (.badBytes "SetState")
        | some payload =>
          .ok { store := storePut db (toHash pid) payload.bytes
                response := stateResponseFor ourName km req.expectsResponse
                  req.metadata (.stateResponse .setState) none
                backupPerformed := false }
      | .getState pid =>
        match storeGet db (toHash pid) with
        | some value =>
          .ok { store := db
                response := stateResponseFor ourName km req.expectsResponse
                  req.metadata (.stateResponse .getState) (some value)
                backupPerformed := false }
        | none => .error (.notFound pid)
      | .deleteState pid =>
        .ok { store := storeErase db (toHash pid)
              response := stateResponseFor ourName km req.expectsResponse
                req.metadata (.stateResponse .deleteState) none
              backupPerformed := false }
      | .backup =>
        .ok { store := db
              response := stateResponseFor ourName km req.expectsResponse
                req.metadata (.stateResponse .backup) none
              backupPerformed := true }
    | _ => .error (.badJson "parse into StateAction failed")

/-- `make_error_message` of state.rs (lines 535–558). -/
def stateMakeErrorMessage (ourName : String) (km : SvcKernelMessage)
    (error : StateError) : SvcKernelMessage :=
  { id := km.id
    source := ⟨ourName, stateProcessId⟩
    target := km.rsvp.getD km.source
    rsvp := none
    message := .response ({ inherit := false
                            ipc := .stateResponse (.err error)
                            metadata := none }, none)
    payload := none
    signedCapabilities := none }

/-- The foreign-source log line of state.rs lines 74–77 (formatting
arguments elided). -/
def stateForeignLog : String := "fs: request must come from our_name"

/-- One turn of the `state_sender` receive loop (state.rs lines 70–104):
outputs the updated store, the envelopes sent to the main loop, the log
lines printed, and whether the message was handed to `handle_request`. -/
structure StateStep where
  store : Store
  sent : List SvcKernelMessage
  logs : List String
  handled : Bool
deriving DecidableEq, Repr

/-- `state_sender` loop body (state.rs lines 72–102): drop foreign-source
messages with only a log line; otherwise run `handle_request`, sending a
`make_error_message` envelope when it fails. -/
def stateSenderStep (ourName : String) (km : SvcKernelMessage)
    (db : Store) : StateStep :=
  if ourName ≠ km.source.node then
    { store := db, sent := [], logs := [stateForeignLog], handled := false }
  else
    match stateHandleRequest ourName km db with
    | .ok out =>
      { store := out.store, sent := out.response.toList, logs := [],
        handled := true }
    | .error e =>
      { store := db, sent := [stateMakeErrorMessage ourName km e],
        logs := [], handled := true }

/-- `PackageId` — (package, publisher) pair. -/
structure PackageId where
  packageName : String
  publisher : String
deriving DecidableEq, Repr

/-- `PackageId::new(source.process.package(), source.process.publisher())`
(vfs.rs line 558). -/
def srcPackageId (source : Address) : PackageId :=
  ⟨source.process.packageName, source.process.publisher⟩

/-- The serde_json rendering of `json!({"kind": kind, "drive": drive})` used
for VFS read/write capability params (vfs.rs and state.rs build these with
the identical expression, so the params compare byte-equal wherever the
source compares them; the rendered key order is fixed here once for all
uses). -/
def driveCapParams (kind drive : String) : String :=
  "\x7b\"kind\":\"" ++ kind ++ "\",\"drive\":\"" ++ drive ++ "\"\x7d"

/-- The serde_json rendering of `json!({"root": true})`. -/
def rootCapParams : String := "\x7b\"root\":true\x7d"

/-- A VFS drive capability `{kind, drive}` issued by the local VFS process. -/
def driveCap (ourNode kind drive : String) : Capability :=
  ⟨⟨ourNode, vfsProcessId⟩, driveCapParams kind drive⟩

/-- The VFS root capability. -/
def rootCap (ourNode : String) : Capability :=
  ⟨⟨ourNode, vfsProcessId⟩, rootCapParams⟩

/-- The write-class actions: first arm of the `match` in `check_caps`
(vfs.rs lines 562–578). -/
def writeClass : VfsAction → Bool
  | .createDir | .createDirAll | .createFile | .openFile | .closeFile
  | .writeAll | .write | .reWrite | .writeAt _ | .append | .syncAll
  | .removeFile | .removeDir | .removeDirAll | .rename _ | .addZip
  | .setLen _ => true
  | _ => false

/-- The read-class actions: second arm of the `match` in `check_caps`
(vfs.rs lines 608–616). -/
def readClass : VfsAction → Bool
  | .read | .readDir | .readExact _ | .readToEnd | .readToString
  | .seek _ | .hash | .metadata | .len => true
  | _ => false

/-- Result of a successful `check_caps`: which capabilities the oracle was
asked about (`CapMessage::Has`), and which were granted to the source
(`CapMessage::Add`, only for `CreateDrive`). -/
structure CapsCheck where
  consulted : List Capability
  added : List Capability
deriving DecidableEq, Repr

/-- `check_caps` of vfs.rs (lines 548–689).  `has` stands for the oracle
`CapMessage::Has` round-trip.  A source whose (package, publisher) equals
the drive's bypasses the oracle; `CreateDrive` on a foreign drive requires
the root capability and always auto-grants the drive's read and write caps
to the creator. -/
def checkCaps (ourNode : String) (source : Address)
    (has : ProcessId → Capability → Bool) (action : VfsAction)
    (path : String) (drive : String) (packageId : PackageId) :
    Except VfsError CapsCheck :=
  if writeClass action then
    if srcPackageId source = packageId then
      .ok { consulted := [], added := [] }
    else
      let cap := driveCap ourNode "write" drive
      if has source.process cap then
        .ok { consulted := [cap], added := [] }
      else
        .error (.noCap action.str path)
  else if readClass action then
    if srcPackageId source = packageId then
      .ok { consulted := [], added := [] }
    else
      let cap := driveCap ourNode "read" drive
      if has source.process cap then
        .ok { consulted := [cap], added := [] }
      else
        .error (.noCap action.str path)
  else
    -- CreateDrive (vfs.rs lines 646–687)
    let rootConsult : Except VfsError (List Capability) :=
      if srcPackageId source ≠ packageId then
        let cap := rootCap ourNode
        if has source.process cap then .ok [cap]
        else .error (.noCap action.str path)
      else
        .ok []
    match rootConsult with
    | .error e => .error e
    | .ok consulted =>
      .ok { consulted := consulted
            added := [driveCap ourNode "read" drive,
                      driveCap ourNode "write" drive] }

/-- The capability gate of vfs.rs `handle_request` (lines 130–142):
`check_caps` runs only when the source process is not the kernel. -/
def vfsCapsGate (ourNode : String) (source : Address)
    (has : ProcessId → Capability → Bool) (action : VfsAction)
    (path : String) (drive : String) (packageId : PackageId) :
    Except VfsError CapsCheck :=
  if source.process ≠ kernelProcessId then
    checkCaps ourNode source has action path drive packageId
  else
    .ok { consulted := [], added := [] }

/-- The foreign-source log line of vfs.rs lines 36–40 (formatting arguments
elided). -/
def vfsForeignLog : String := "vfs: request must come from our_node"

/-- One turn of the `vfs` receive loop (vfs.rs lines 32–84): the per-source
queues, whether a handler task was spawned for the message, and the log
lines printed. -/
structure VfsStep where
  queues : List (ProcessId × List SvcKernelMessage)
  spawned : Bool
  logs : List String
deriving DecidableEq, Repr

/-- `process_queues.entry(..).or_insert_with(..)` followed by `push_back`. -/
def enqueueKM : List (ProcessId × List SvcKernelMessage) → ProcessId →
    SvcKernelMessage → List (ProcessId × List SvcKernelMessage)
  | [], pid, km => [(pid, [km])]
  | q :: rest, pid, km =>
    if q.1 = pid then (q.1, q.2 ++ [km]) :: rest
    else q :: enqueueKM rest pid km

/-- `vfs` loop body (vfs.rs lines 34–82): drop foreign-source messages with
only a log line; otherwise enqueue on the source's queue and spawn a
handler task. -/
def vfsLoopStep (ourNode : String)
    (queues : List (ProcessId × List SvcKernelMessage))
    (km : SvcKernelMessage) : VfsStep :=
  if ourNode ≠ km.source.node then
    { queues := queues, spawned := false, logs := [vfsForeignLog] }
  else
    { queues := enqueueKM queues km.source.process km
      spawned := true
      logs := [] }

/-- `OnPanic` of this vintage (state.rs bootstrap). -/
inductive OnPanic where
  | panicNone
  | restart
  | requests : List (Address × SvcRequest × Option Payload) → OnPanic
deriving DecidableEq, Repr

/-- A manifest entry: the fields of `PackageManifestEntry` that `bootstrap`
reads (state.rs lines 418–500). -/
structure PackageManifestEntry where
  processName : String
  processWasmPath : String
  onPanic : OnPanic
  requestNetworking : Bool
  requestMessaging : Option (List String)
  public : Bool
deriving DecidableEq, Repr

/-- A messaging capability issued by a local process
(`params: "\"messaging\""`). -/
def mkMessagingCap (ourName : String) (p : ProcessId) : Capability :=
  ⟨⟨ourName, p⟩, "\"messaging\""⟩

/-- The network capability issued by the local kernel
(`params: "\"network\""`). -/
def networkCap (ourName : String) : Capability :=
  ⟨⟨ourName, kernelProcessId⟩, "\"network\""⟩

/-- The capability set `bootstrap` computes for one manifest entry
(state.rs lines 430–483): messaging caps for every process named in
`request_messaging` *plus the entry's own process id, which the source
pushes into that list* (line 439), the network cap when
`request_networking` is set, and the read and write caps for the package's
drive.  `HashSet` semantics modelled by `Finset`. -/
def bootstrapEntryCaps (ourName packageName packagePublisher : String)
    (entry : PackageManifestEntry) (drivePath : String) : Finset Capability :=
  let ourProcessIdStr :=
    entry.processName ++ ":" ++ packageName ++ ":" ++ packagePublisher
  let messaging :=
    ((entry.requestMessaging.getD []) ++ [ourProcessIdStr]).map
      (fun pname => mkMessagingCap ourName (ProcessId.fromStrD pname))
  messaging.toFinset
    ∪ (if entry.requestNetworking then {networkCap ourName} else ∅)
    ∪ {driveCap ourName "read" drivePath, driveCap ourName "write" drivePath}

/-- Following the spec's words for claim C8 (refinement target, not the
source): exactly the manifest's declared caps — a messaging cap per process
named in `request_messaging` and the network cap iff `request_networking` —
plus the read/write caps for the package's own drive, and nothing else. -/
def specEntryCaps (ourName : String) (entry : PackageManifestEntry)
    (drivePath : String) : Finset Capability :=
  ((entry.requestMessaging.getD []).map
      (fun pname => mkMessagingCap ourName (ProcessId.fromStrD pname))).toFinset
    ∪ (if entry.requestNetworking then {networkCap ourName} else ∅)
    ∪ {driveCap ourName "read" drivePath, driveCap ourName "write" drivePath}

end Svc

/-! ## Helper lemmas about the contexts map and capability pruning -/

namespace Proc

theorem ctxLookup_erase_self (m : Contexts) (k : Nat) :
    ctxLookup (ctxErase m k) k = none := by
  induction m with
  | nil => rfl
  | cons e m ih =>
    by_cases h : e.1 = k
    · simp only [ctxLookup, ctxErase, List.filter_cons] at ih ⊢
      simp [h, ih]
    · simp only [ctxLookup, ctxErase, List.filter_cons] at ih ⊢
      simp [List.find?_cons, h, ih]

theorem ctxLookup_erase_ne (m : Contexts) (k k' : Nat) (h : k' ≠ k) :
    ctxLookup (ctxErase m k) k' = ctxLookup m k' := by
  have hne : k ≠ k' := fun c => h c.symm
  induction m with
  | nil => rfl
  | cons e m ih =>
    by_cases he : e.1 = k
    · simpa [ctxLookup, ctxErase, List.filter_cons, List.find?_cons, he, hne]
        using ih
    · by_cases he' : e.1 = k'
      · simp [ctxLookup, ctxErase, List.filter_cons, List.find?_cons, he,
          he', h]
      · simpa [ctxLookup, ctxErase, List.filter_cons, List.find?_cons, he,
          he'] using ih

theorem ctxLookup_insert_self (m : Contexts) (k : Nat) (v : CtxEntry) :
    ctxLookup (ctxInsert m k v) k = some v := by
  simp [ctxLookup, ctxInsert, List.find?_cons]

theorem ctxLookup_insert_ne (m : Contexts) (k k' : Nat) (v : CtxEntry)
    (h : k' ≠ k) : ctxLookup (ctxInsert m k v) k' = ctxLookup m k' := by
  have hne : k ≠ k' := fun c => h c.symm
  rw [ctxInsert]
  rw [show ctxLookup ((k, v) :: ctxErase m k) k' =
      ctxLookup (ctxErase m k) k' from by
    simp [ctxLookup, List.find?_cons, hne]]
  exact ctxLookup_erase_ne m k k' h

theorem mem_pruneCaps (verify : Capability → Sig → Bool)
    (ourNode sourceNode : String) (caps : List (Capability × Sig))
    (cap : Capability) (sig : Sig) :
    (cap, sig) ∈ pruneCaps verify ourNode sourceNode caps ↔
      (cap, sig) ∈ caps ∧
        (sourceNode ≠ ourNode → cap.issuer.node = ourNode →
          verify cap sig = true) := by
  unfold pruneCaps
  rw [List.mem_filter]
  refine and_congr_right (fun _ => ?_)
  by_cases hc : sourceNode ≠ ourNode ∧ cap.issuer.node = ourNode
  · simp only [if_pos hc]
    exact ⟨fun hv _ _ => hv, fun hi => hi hc.1 hc.2⟩
  · simp only [if_neg hc]
    constructor
    · intro _ h1 h2
      exact absurd ⟨h1, h2⟩ hc
    · intro _
      trivial

theorem pruneCaps_local (verify : Capability → Sig → Bool)
    (ourNode sourceNode : String) (caps : List (Capability × Sig))
    (h : sourceNode = ourNode) :
    pruneCaps verify ourNode sourceNode caps = caps := by
  unfold pruneCaps
  rw [List.filter_eq_self]
  intro a _
  simp [h]

/-- A Request with its capability list replaced. -/
def Request.withCaps (r : Request) (caps : List (Capability × Sig)) :
    Request :=
  { r with capabilities := caps }

/-- A Response with its capability list replaced. -/
def Response.withCaps (r : Response) (caps : List (Capability × Sig)) :
    Response :=
  { r with capabilities := caps }

end Proc

/-! ## The claims -/

open Proc Svc in
/-- C1: on receive of an envelope (Request or Response alike), a capability
attached to it whose issuer node is the local node, arriving from a source
node different from the local node, is delivered to the process iff the
Ed25519 signature over the capability's serialization verifies under the
local public key (`verify` stands for that check); capabilities failing
verification are removed and no error is raised (the receive result is
still `ok`); capabilities with any other issuer, or arriving from the local
node, pass through without verification. -/
theorem receive_verifies_local_issuer_caps
    (verify : Capability → Sig → Bool) (s : ProcessState)
    (km : KernelMessage) :
    (∀ req, km.message = .request req →
      (kernelMessageToProcessReceive verify s (.ok km)).result =
        .ok (km.source, .request (req.withCaps
          (pruneCaps verify s.our.node km.source.node req.capabilities))) ∧
      (∀ cap sig,
        (cap, sig) ∈
            pruneCaps verify s.our.node km.source.node req.capabilities ↔
          (cap, sig) ∈ req.capabilities ∧
            (km.source.node ≠ s.our.node → cap.issuer.node = s.our.node →
              verify cap sig = true)) ∧
      (km.source.node = s.our.node →
        pruneCaps verify s.our.node km.source.node req.capabilities =
          req.capabilities)) ∧
    (∀ resp c, km.message = .response (resp, c) →
      (kernelMessageToProcessReceive verify s (.ok km)).result =
        .ok (km.source, .response
          (resp.withCaps
            (pruneCaps verify s.our.node km.source.node resp.capabilities),
           match ctxLookup s.contexts km.id with
           | some entry => entry.1.context
           | none => none)) ∧
      (∀ cap sig,
        (cap, sig) ∈
            pruneCaps verify s.our.node km.source.node resp.capabilities ↔
          (cap, sig) ∈ resp.capabilities ∧
            (km.source.node ≠ s.our.node → cap.issuer.node = s.our.node →
              verify cap sig = true)) ∧
      (km.source.node = s.our.node →
        pruneCaps verify s.our.node km.source.node resp.capabilities =
          resp.capabilities)) := by
  constructor
  · intro req h
    refine ⟨?_, fun cap sig => mem_pruneCaps _ _ _ _ _ _,
      fun hl => pruneCaps_local _ _ _ _ hl⟩
    simp [kernelMessageToProcessReceive, h, Request.withCaps]
  · intro resp c h
    refine ⟨?_, fun cap sig => mem_pruneCaps _ _ _ _ _ _,
      fun hl => pruneCaps_local _ _ _ _ hl⟩
    cases hctx : ctxLookup s.contexts km.id <;>
      simp [kernelMessageToProcessReceive, h, hctx, Response.withCaps]

open Proc in
/-- Fixed inputs for the C1 witness: a foreign envelope carrying one
correctly-signed local-issuer cap, one forged local-issuer cap, and one
foreign-issuer cap. -/
def verifyW : Capability → Sig → Bool := fun _ sig => sig == [1]

open Proc in
def ourW : Address := ⟨"node-a", ⟨"proc", "pkg", "pub"⟩⟩

open Proc in
def sW : ProcessState := ⟨ourW, none, none, [], none⟩

open Proc in
def capLocalW : Capability := ⟨⟨"node-a", ⟨"x", "y", "z"⟩⟩, "\"messaging\""⟩

open Proc in
def capForeignW : Capability := ⟨⟨"node-b", ⟨"x", "y", "z"⟩⟩, "\"messaging\""⟩

open Proc in
def reqW : Request :=
  ⟨false, none, [104, 105], none,
    [(capLocalW, [1]), (capLocalW, [9]), (capForeignW, [9])]⟩

open Proc in
def kmW : KernelMessage :=
  ⟨7, ⟨"node-z", ⟨"a", "b", "c"⟩⟩, ourW, none, .request reqW, none⟩

open Proc in
/-- C1 witness: at the concrete foreign envelope, the correctly-signed
local-issuer cap and the foreign-issuer cap are delivered, the forged
local-issuer cap is dropped, and the receive returns `ok`. -/
theorem receive_verifies_local_issuer_caps_witness :
    (kernelMessageToProcessReceive verifyW sW (.ok kmW)).result =
      .ok (kmW.source, .request (reqW.withCaps
        [(capLocalW, [1]), (capForeignW, [9])])) := by
  have h := (receive_verifies_local_issuer_caps verifyW sW kmW).1 reqW rfl
  exact h.1.trans (by decide)

open Proc in
/-- A trivial stand-in for the caps oracle's `FilterCaps` used at concrete
inputs: every cap passes, with an empty signature. -/
def noSigs : List Capability → List (Capability × Sig) :=
  fun caps => caps.map (fun c => (c, []))

open Proc in
/-- The predecessor Request envelope for the C2 failing input: id 5. -/
def kmPredC2 : KernelMessage :=
  ⟨5, ⟨"node-b", ⟨"a", "b", "c"⟩⟩, ourW, none,
    .request ⟨false, some 10, [1], none, []⟩, none⟩

open Proc in
/-- The C2 failing state: the predecessor's id 5 is still outstanding in
`contexts`. -/
def sC2 : ProcessState :=
  ⟨ourW, none, some kmPredC2, [(5, (⟨none, none⟩, 0))], none⟩

open Proc in
def targetC2 : Address := ⟨"node-a", ⟨"t", "u", "v"⟩⟩

open Proc in
/-- C2: at the failing input — `inherit = true`, predecessor Request id 5,
and id 5 still a key of `contexts` — the source reuses id 5 anyway
(`send_request` lines 192–201 test only `inherit && predecessor.is_some()`),
colliding with the outstanding entry; the claim (spec §9's clarified rule)
requires drawing fresh here.  The fresh-id path itself does redraw on
collision (third conjunct), and a `send_request` expecting a response at the
colliding id silently overwrites the outstanding context entry (fourth
conjunct shows the reused id is returned by the full `send_request`). -/
theorem send_request_reuses_outstanding_id :
    ctxContains sC2.contexts 5 = true ∧
    computeRequestId sC2 true [7, 8] = some 5 ∧
    computeRequestId sC2 false [5, 7] = some 7 ∧
    (sendRequest noSigs sC2 none targetC2 ⟨true, some 10, [2], none, []⟩
        none none [7, 8] 1).map (·.requestId) = some 5 := by
  decide

open Proc in
/-- C3: context-entry lifecycle.  (i) A send with `expects_response` creates
the entry under the request id, and the armed timer's payload is a
`SendError` with that id and kind `Timeout`, destined for the process's own
inbox.  (ii) A Response with equal id consumes the entry and aborts exactly
its timer.  (iii) Receipt of the (timeout) error with that id consumes the
entry and surfaces the stored user context.  (iv)/(v) Once the entry is
gone, neither path removes anything or aborts any timer — the entry is
never consumed by both.  (vi) Requests never touch the map, and each
consumption/creation leaves every other key unchanged. -/
theorem context_entry_lifecycle :
    (∀ (filterCaps : List Capability → List (Capability × Sig))
       (s : ProcessState) (fakeSource : Option Address) (target : Address)
       (request : Request) (newContext : Option Context)
       (blob : Option LazyLoadBlob) (draws : List Nat) (timerId : Nat)
       (out : SendRequestOut) (t : Nat),
      request.expectsResponse = some t →
      sendRequest filterCaps s fakeSource target request newContext blob
          draws timerId = some out →
      ctxLookup out.state.contexts out.requestId =
        some (⟨predecessorRequest s, newContext⟩, timerId) ∧
      out.timerPayload.map (·.id) = some out.requestId ∧
      out.timerPayload.map (fun w => w.error.kind) =
        some SendErrorKind.timeout ∧
      (∀ k, k ≠ out.requestId →
        ctxLookup out.state.contexts k = ctxLookup s.contexts k)) ∧
    (∀ (verify : Capability → Sig → Bool) (s : ProcessState)
       (km : KernelMessage) (resp : Response) (c : Option Context)
       (entry : CtxEntry),
      km.message = .response (resp, c) →
      ctxLookup s.contexts km.id = some entry →
      ctxLookup
          (kernelMessageToProcessReceive verify s (.ok km)).state.contexts
          km.id = none ∧
      (kernelMessageToProcessReceive verify s (.ok km)).abortedTimers =
        [entry.2] ∧
      (∀ k, k ≠ km.id →
        ctxLookup
            (kernelMessageToProcessReceive verify s (.ok km)).state.contexts
            k = ctxLookup s.contexts k)) ∧
    (∀ (verify : Capability → Sig → Bool) (s : ProcessState)
       (e : WrappedSendError) (entry : CtxEntry),
      ctxLookup s.contexts e.id = some entry →
      ctxLookup
          (kernelMessageToProcessReceive verify s (.error e)).state.contexts
          e.id = none ∧
      (kernelMessageToProcessReceive verify s (.error e)).abortedTimers =
        [entry.2] ∧
      (kernelMessageToProcessReceive verify s (.error e)).result =
        .error (e.error, entry.1.context) ∧
      (∀ k, k ≠ e.id →
        ctxLookup
            (kernelMessageToProcessReceive verify s (.error e)).state.contexts
            k = ctxLookup s.contexts k)) ∧
    (∀ (verify : Capability → Sig → Bool) (s : ProcessState)
       (km : KernelMessage) (resp : Response) (c : Option Context),
      km.message = .response (resp, c) →
      ctxLookup s.contexts km.id = none →
      (kernelMessageToProcessReceive verify s (.ok km)).state.contexts =
        s.contexts ∧
      (kernelMessageToProcessReceive verify s (.ok km)).abortedTimers =
        []) ∧
    (∀ (verify : Capability → Sig → Bool) (s : ProcessState)
       (e : WrappedSendError),
      ctxLookup s.contexts e.id = none →
      (kernelMessageToProcessReceive verify s (.error e)).state.contexts =
        s.contexts ∧
      (kernelMessageToProcessReceive verify s (.error e)).abortedTimers =
        [] ∧
      (kernelMessageToProcessReceive verify s (.error e)).result =
        .error (e.error, none)) ∧
    (∀ (verify : Capability → Sig → Bool) (s : ProcessState)
       (km : KernelMessage) (req : Request),
      km.message = .request req →
      (kernelMessageToProcessReceive verify s (.ok km)).state.contexts =
        s.contexts ∧
      (kernelMessageToProcessReceive verify s (.ok km)).abortedTimers =
        []) := by
  refine ⟨?_, ?_, ?_, ?_, ?_, ?_⟩
  · intro filterCaps s fakeSource target request newContext blob draws
      timerId out t hexp hsend
    cases hid : computeRequestId s request.inherit draws with
    | none => simp [sendRequest, hid] at hsend
    | some rid =>
      simp only [sendRequest, hid, hexp] at hsend
      cases hsend
      refine ⟨?_, rfl, rfl, ?_⟩
      · exact ctxLookup_insert_self _ _ _
      · intro k hk
        exact ctxLookup_insert_ne _ _ _ _ hk
  · intro verify s km resp c entry h hctx
    refine ⟨?_, ?_, ?_⟩
    · simp [kernelMessageToProcessReceive, h, hctx, ctxLookup_erase_self]
    · simp [kernelMessageToProcessReceive, h, hctx]
    · intro k hk
      have he := ctxLookup_erase_ne s.contexts km.id k hk
      simp [kernelMessageToProcessReceive, h, hctx, he]
  · intro verify s e entry hctx
    refine ⟨?_, ?_, ?_, ?_⟩
    · simp [kernelMessageToProcessReceive, hctx, ctxLookup_erase_self]
    · simp [kernelMessageToProcessReceive, hctx]
    · simp [kernelMessageToProcessReceive, hctx]
    · intro k hk
      have he := ctxLookup_erase_ne s.contexts e.id k hk
      simp [kernelMessageToProcessReceive, hctx, he]
  · intro verify s km resp c h hctx
    constructor <;> simp [kernelMessageToProcessReceive, h, hctx]
  · intro verify s e hctx
    refine ⟨?_, ?_, ?_⟩ <;> simp [kernelMessageToProcessReceive, hctx]
  · intro verify s km req h
    constructor <;> simp [kernelMessageToProcessReceive, h]

open Proc in
/-- C3 witness inputs: a state with one outstanding context under id 5
(timer handle 3, user context `[1]`) and the matching Response envelope. -/
def sC3 : ProcessState :=
  ⟨ourW, none, none, [(5, (⟨none, some [1]⟩, 3)), (8, (⟨none, none⟩, 4))],
    none⟩

open Proc in
def kmRespC3 : KernelMessage :=
  ⟨5, ⟨"node-b", ⟨"a", "b", "c"⟩⟩, ourW, none,
    .response (⟨false, [2], none, []⟩, none), none⟩

open Proc in
/-- C3 witness: at the concrete state, the matching Response consumes the
id-5 entry, aborts exactly timer 3, and leaves the id-8 entry in place. -/
theorem context_entry_lifecycle_witness :
    ctxLookup
        (kernelMessageToProcessReceive verifyW sC3 (.ok kmRespC3)).state.contexts
        5 = none ∧
    (kernelMessageToProcessReceive verifyW sC3 (.ok kmRespC3)).abortedTimers =
      [3] ∧
    ctxLookup
        (kernelMessageToProcessReceive verifyW sC3 (.ok kmRespC3)).state.contexts
        8 = some (⟨none, none⟩, 4) := by
  have h := context_entry_lifecycle.2.1 verifyW sC3 kmRespC3
    ⟨false, [2], none, []⟩ none (⟨none, some [1]⟩, 3) rfl (by decide)
  refine ⟨h.1, h.2.1, ?_⟩
  rw [h.2.2 8 (by decide)]
  decide

open Proc in
/-- A Response envelope whose own `rsvp` field is set — e.g. one forwarded
verbatim by the dispatch loop from another node. -/
def addrQ : Address := ⟨"node-q", ⟨"q", "r", "s"⟩⟩

open Proc in
def kmRespC4 : KernelMessage :=
  ⟨9, ⟨"node-b", ⟨"a", "b", "c"⟩⟩, ourW, some addrQ,
    .response (⟨false, [2], none, []⟩, none), none⟩

open Proc in
/-- The C4 failing state, reached by receiving `kmRespC4` (no matching
context): `current_incoming_message` is a Response carrying `rsvp = addrQ`. -/
def sC4 : ProcessState :=
  (kernelMessageToProcessReceive verifyW ⟨ourW, none, none, [], none⟩
    (.ok kmRespC4)).state

open Proc in
/-- C4 counterexample: with `expects_response = None`, `inherit = true` and
`current_incoming_message` a Response (not a Request), the claim requires
`rsvp = None`; the code (process.rs lines 278–293) matches only on
`Some(prompt)` and copies `prompt.rsvp`, producing `Some addrQ`. -/
theorem send_request_rsvp_claim_counterexample :
    requestKM? sC4.currentIncomingMessage = none ∧
    (sendRequest noSigs sC4 none targetC2 ⟨true, none, [3], none, []⟩
        none none [4] 0).map (·.kernelMessage.rsvp) = some (some addrQ) := by
  decide

open Proc in
/-- C4 amended: the rsvp of an outgoing request is the sender's own address
whenever a response is expected; otherwise, with `inherit = true`, it is the
`rsvp` field of `current_incoming_message` whenever one is present —
whether that envelope is a Request or a Response — and `None` when
`current_incoming_message` is absent or `inherit = false`. -/
theorem send_request_rsvp_amended
    (filterCaps : List Capability → List (Capability × Sig))
    (s : ProcessState) (fakeSource : Option Address) (target : Address)
    (request : Request) (newContext : Option Context)
    (blob : Option LazyLoadBlob) (draws : List Nat) (timerId : Nat)
    (out : SendRequestOut)
    (hsend : sendRequest filterCaps s fakeSource target request newContext
      blob draws timerId = some out) :
    (∀ t, request.expectsResponse = some t →
      out.kernelMessage.rsvp = some s.our) ∧
    (request.expectsResponse = none → request.inherit = true →
      out.kernelMessage.rsvp = s.currentIncomingMessage.bind (·.rsvp)) ∧
    (request.expectsResponse = none → request.inherit = false →
      out.kernelMessage.rsvp = none) := by
  cases hid : computeRequestId s request.inherit draws with
  | none => simp [sendRequest, hid] at hsend
  | some rid =>
    simp only [sendRequest, hid] at hsend
    refine ⟨?_, ?_, ?_⟩
    · intro t hexp
      simp only [hexp] at hsend
      cases hsend
      rfl
    · intro hexp hinh
      simp only [hexp, hinh] at hsend
      cases hsend
      cases s.currentIncomingMessage <;> rfl
    · intro hexp hinh
      simp only [hexp, hinh] at hsend
      cases hsend
      cases s.currentIncomingMessage <;> rfl

open Proc in
/-- C4 witness: the amended rule evaluated at the concrete Response-with-rsvp
state — the inherited rsvp is `addrQ`, the envelope's own rsvp field. -/
theorem send_request_rsvp_amended_witness :
    (sendRequest noSigs sC4 none targetC2 ⟨true, none, [3], none, []⟩
        none none [4] 0).map (·.kernelMessage.rsvp) =
      some (some addrQ) := by
  cases hout : sendRequest noSigs sC4 none targetC2
      ⟨true, none, [3], none, []⟩ none none [4] 0 with
  | none => exact absurd hout (by decide)
  | some out =>
    have h := (send_request_rsvp_amended noSigs sC4 none targetC2
      ⟨true, none, [3], none, []⟩ none none [4] 0 out hout).2.1 rfl rfl
    rw [Option.map_some', h]
    decide

open Proc in
/-- A Response envelope carrying a blob, for the C5 counterexample. -/
def kmRespC5 : KernelMessage :=
  ⟨11, ⟨"node-b", ⟨"a", "b", "c"⟩⟩, ourW, none,
    .response (⟨false, [2], none, []⟩, none), some ⟨none, [42]⟩⟩

open Proc in
/-- The C5 failing state, reached by receiving `kmRespC5` (no matching
context): `last_blob` is the Response's blob, but no predecessor Request
exists. -/
def sC5 : ProcessState :=
  (kernelMessageToProcessReceive verifyW ⟨ourW, none, none, [], none⟩
    (.ok kmRespC5)).state

open Proc in
/-- C5 counterexample: `last_blob` is `[42]` (set by the receive), yet a
Request sent with `inherit = true` and no explicit blob goes out with *no*
blob — `send_request` (process.rs lines 205–216) inherits from the
predecessor Request (`current_incoming_message` if a Request, else
`nested_request`), not from `last_blob`, and here no predecessor Request
exists. -/
theorem send_request_blob_claim_counterexample :
    sC5.lastBlob = some ⟨none, [42]⟩ ∧
    (sendRequest noSigs sC5 none targetC2 ⟨true, none, [0], none, []⟩
        none none [4] 0).map (·.kernelMessage.lazyLoadBlob) =
      some none := by
  decide

open Proc in
/-- C5 amended: on send of a *Response* with `inherit = true` the outgoing
blob is `last_blob` (any explicit blob argument is ignored); on send of a
*Request* with `inherit = true` and no explicit blob the outgoing blob is
the predecessor Request's blob — `current_incoming_message` if it is a
Request, else `nested_request` if that is a Request — and no blob when no
predecessor Request exists; `last_blob` itself is set from the envelope on
every successful receive. -/
theorem blob_inheritance_amended :
    (∀ (filterCaps : List Capability → List (Capability × Sig))
       (s : ProcessState) (response : Response)
       (blob : Option LazyLoadBlob) (out : KernelMessage),
      response.inherit = true →
      sendResponse filterCaps s response blob = some out →
      out.lazyLoadBlob = s.lastBlob) ∧
    (∀ (filterCaps : List Capability → List (Capability × Sig))
       (s : ProcessState) (fakeSource : Option Address) (target : Address)
       (request : Request) (newContext : Option Context) (draws : List Nat)
       (timerId : Nat) (out : SendRequestOut),
      request.inherit = true →
      sendRequest filterCaps s fakeSource target request newContext none
          draws timerId = some out →
      out.kernelMessage.lazyLoadBlob =
        (predecessorRequest s).bind (·.lazyLoadBlob)) ∧
    (∀ (verify : Capability → Sig → Bool) (s : ProcessState)
       (km : KernelMessage),
      (kernelMessageToProcessReceive verify s (.ok km)).state.lastBlob =
        km.lazyLoadBlob) := by
  refine ⟨?_, ?_, ?_⟩
  · intro filterCaps s response blob out hinh hsend
    cases hit : makeResponseIdTarget s with
    | none => simp [sendResponse, hit] at hsend
    | some idTarget =>
      simp only [sendResponse, hit, hinh] at hsend
      cases hsend
      rfl
  · intro filterCaps s fakeSource target request newContext draws timerId
      out hinh hsend
    cases hid : computeRequestId s request.inherit draws with
    | none => simp [sendRequest, hid] at hsend
    | some rid =>
      simp only [sendRequest, hid] at hsend
      cases hexp : request.expectsResponse with
      | none =>
        simp only [hexp] at hsend
        cases hsend
        simp [computeBlob, hinh]
      | some t =>
        simp only [hexp] at hsend
        cases hsend
        simp [computeBlob, hinh]
  · intro verify s km
    cases hm : km.message with
    | request req => simp [kernelMessageToProcessReceive, hm]
    | response respCtx =>
      cases hctx : ctxLookup s.contexts km.id <;>
        simp [kernelMessageToProcessReceive, hm, hctx]

open Proc in
/-- A predecessor Request carrying a blob, for the C5 witness. -/
def kmReqC5 : KernelMessage :=
  ⟨13, ⟨"node-b", ⟨"a", "b", "c"⟩⟩, ourW, none,
    .request ⟨false, some 5, [1], none, []⟩, some ⟨some "text/plain", [7, 8]⟩⟩

open Proc in
def sC5r : ProcessState := ⟨ourW, none, some kmReqC5, [], none⟩

open Proc in
/-- C5 witness: at a state whose current incoming message is a Request with
blob `[7,8]`, an inheriting Request with no explicit blob goes out carrying
exactly that blob. -/
theorem blob_inheritance_amended_witness :
    (sendRequest noSigs sC5r none targetC2 ⟨true, none, [0], none, []⟩
        none none [4] 0).map (·.kernelMessage.lazyLoadBlob) =
      some (some ⟨some "text/plain", [7, 8]⟩) := by
  cases hout : sendRequest noSigs sC5r none targetC2
      ⟨true, none, [0], none, []⟩ none none [4] 0 with
  | none => exact absurd hout (by decide)
  | some out =>
    have h := blob_inheritance_amended.2.1 noSigs sC5r none targetC2
      ⟨true, none, [0], none, []⟩ none [4] 0 out rfl hout
    rw [Option.map_some', h]
    decide

open Proc in
/-- C6: with on-exit policy `Restart`, the cleanup re-initializes the
process — an `InitializeProcess` command carrying the same process id, wasm
handle, on-exit policy, public flag and the capabilities fetched from the
oracle, with the wasm image as blob, followed by `RunProcess` — iff `init`
returned without error; on an errored exit only a single log line is
emitted and no command is sent. -/
theorem on_exit_restart_enactment (has : Capability → Bool)
    (metadata : ProcessMetadata) (isError : Bool)
    (initialCapabilities : List Capability) (wasmBytes : List Nat)
    (rids : Nat → Nat) (h : metadata.onExit = OnExit.restart) :
    (isError = true →
      enactOnExit has metadata isError initialCapabilities wasmBytes rids =
        [.print 0 ("skipping OnExit::Restart for process " ++
          metadata.our.process.str ++ " due to crash")]) ∧
    (isError = false →
      enactOnExit has metadata isError initialCapabilities wasmBytes rids =
        [.print 1 ("firing OnExit::Restart for process " ++
           metadata.our.process.str),
         .sendCmd (rids 0)
           (.initializeProcess metadata.our.process metadata.wasmBytesHandle
             (some metadata.witVersion) OnExit.restart initialCapabilities
             metadata.public)
           (some ⟨none, wasmBytes⟩),
         .sendCmd (rids 1) (.runProcess metadata.our.process) none]) := by
  constructor <;> intro hErr <;> simp [enactOnExit, h, hErr]

open Proc in
/-- Concrete metadata for the C6 witness. -/
def metaC6 : ProcessMetadata :=
  ⟨⟨"node-a", ⟨"proc", "pkg", "pub"⟩⟩, "/drive/proc.wasm", 0,
    OnExit.restart, false⟩

open Proc in
def capC6 : Capability := ⟨⟨"node-a", ⟨"x", "y", "z"⟩⟩, "\"messaging\""⟩

open Proc in
/-- C6 witness: at concrete metadata with `Restart`, a crashed exit emits
only the skip log line, and a clean exit emits the re-initialization
commands with the same handle, policy and capabilities. -/
theorem on_exit_restart_enactment_witness :
    enactOnExit (fun _ => true) metaC6 true [capC6] [0, 1] (fun i => i) =
      [.print 0 ("skipping OnExit::Restart for process " ++
        metaC6.our.process.str ++ " due to crash")] ∧
    enactOnExit (fun _ => true) metaC6 false [capC6] [0, 1] (fun i => i) =
      [.print 1 ("firing OnExit::Restart for process " ++
         metaC6.our.process.str),
       .sendCmd 0
         (.initializeProcess metaC6.our.process metaC6.wasmBytesHandle
           (some 0) OnExit.restart [capC6] false)
         (some ⟨none, [0, 1]⟩),
       .sendCmd 1 (.runProcess metaC6.our.process) none] := by
  exact ⟨(on_exit_restart_enactment (fun _ => true) metaC6 true [capC6]
      [0, 1] (fun i => i) rfl).1 rfl,
    ((on_exit_restart_enactment (fun _ => true) metaC6 false [capC6]
      [0, 1] (fun i => i) rfl).2 rfl).trans (by decide)⟩

open Svc in
/-- Write-class actions never satisfy `readClass` and vice versa; neither
class contains `CreateDrive`. -/
theorem vfs_action_classes_disjoint (a : VfsAction) :
    (writeClass a = true → readClass a = false) ∧
    (readClass a = true → writeClass a = false) ∧
    (a = .createDrive → writeClass a = false ∧ readClass a = false) := by
  cases a <;> simp [writeClass, readClass]

open Svc in
/-- C7: the VFS capability gate.  Kernel-sourced requests skip `check_caps`
entirely; for any other source, a (package, publisher) pair equal to the
drive's bypasses the oracle (the result holds for *every* oracle and
consults nothing); otherwise write-class actions require the matching
`{kind: write, drive}` cap, read-class actions the `{kind: read, drive}`
cap, and `CreateDrive` on a foreign drive the root cap — each failing with
`NoCap` when the oracle denies, and `CreateDrive` always auto-granting the
drive's read and write caps to the creator. -/
theorem vfs_caps_gate_bypass_and_oracle (ourNode : String) (source : Address)
    (has : ProcessId → Capability → Bool) (action : VfsAction)
    (path drive : String) (packageId : PackageId) :
    (source.process = kernelProcessId →
      vfsCapsGate ourNode source has action path drive packageId =
        .ok ⟨[], []⟩) ∧
    (source.process ≠ kernelProcessId →
      vfsCapsGate ourNode source has action path drive packageId =
        checkCaps ourNode source has action path drive packageId) ∧
    (srcPackageId source = packageId →
      (writeClass action = true ∨ readClass action = true) →
      checkCaps ourNode source has action path drive packageId =
        .ok ⟨[], []⟩) ∧
    (srcPackageId source = packageId → action = .createDrive →
      checkCaps ourNode source has action path drive packageId =
        .ok ⟨[], [driveCap ourNode "read" drive,
                  driveCap ourNode "write" drive]⟩) ∧
    (srcPackageId source ≠ packageId → writeClass action = true →
      (has source.process (driveCap ourNode "write" drive) = true →
        checkCaps ourNode source has action path drive packageId =
          .ok ⟨[driveCap ourNode "write" drive], []⟩) ∧
      (has source.process (driveCap ourNode "write" drive) = false →
        checkCaps ourNode source has action path drive packageId =
          .error (.noCap action.str path))) ∧
    (srcPackageId source ≠ packageId → readClass action = true →
      (has source.process (driveCap ourNode "read" drive) = true →
        checkCaps ourNode source has action path drive packageId =
          .ok ⟨[driveCap ourNode "read" drive], []⟩) ∧
      (has source.process (driveCap ourNode "read" drive) = false →
        checkCaps ourNode source has action path drive packageId =
          .error (.noCap action.str path))) ∧
    (srcPackageId source ≠ packageId → action = .createDrive →
      (has source.process (rootCap ourNode) = true →
        checkCaps ourNode source has action path drive packageId =
          .ok ⟨[rootCap ourNode], [driveCap ourNode "read" drive,
                                   driveCap ourNode "write" drive]⟩) ∧
      (has source.process (rootCap ourNode) = false →
        checkCaps ourNode source has action path drive packageId =
          .error (.noCap action.str path))) := by
  refine ⟨?_, ?_, ?_, ?_, ?_, ?_, ?_⟩
  · intro hk
    simp [vfsCapsGate, hk]
  · intro hk
    simp [vfsCapsGate, hk]
  · intro hsrc hclass
    cases hclass with
    | inl hw => simp [checkCaps, hw, hsrc]
    | inr hr =>
      have hwf := (vfs_action_classes_disjoint action).2.1 hr
      simp [checkCaps, hwf, hr, hsrc]
  · intro hsrc hact
    subst hact
    simp [checkCaps, writeClass, readClass, hsrc]
  · intro hsrc hw
    constructor <;> intro hhas <;> simp [checkCaps, hw, hsrc, hhas]
  · intro hsrc hr
    have hwf := (vfs_action_classes_disjoint action).2.1 hr
    constructor <;> intro hhas <;> simp [checkCaps, hwf, hr, hsrc, hhas]
  · intro hsrc hact
    subst hact
    constructor <;> intro hhas <;>
      simp [checkCaps, writeClass, readClass, hsrc, hhas]

open Svc in
/-- Concrete addresses for the C7 witness. -/
def srcC7 : Address := ⟨"node-a", ⟨"app", "pkg", "pub"⟩⟩

open Svc in
def pkgC7 : PackageId := ⟨"pkg", "pub"⟩

open Svc in
def pkgOtherC7 : PackageId := ⟨"other", "pub2"⟩

open Svc in
/-- C7 witness: the owner package bypasses the oracle on a write (even an
all-denying oracle), and a foreign package without the write cap gets
`NoCap`. -/
theorem vfs_caps_gate_bypass_and_oracle_witness :
    checkCaps "node-a" srcC7 (fun _ _ => false) .write "/pkg:pub/d/f"
        "/pkg:pub/d" pkgC7 = .ok ⟨[], []⟩ ∧
    checkCaps "node-a" srcC7 (fun _ _ => false) .write "/other:pub2/d/f"
        "/other:pub2/d" pkgOtherC7 =
      .error (.noCap "Write" "/other:pub2/d/f") := by
  refine ⟨(vfs_caps_gate_bypass_and_oracle "node-a" srcC7 (fun _ _ => false)
      .write "/pkg:pub/d/f" "/pkg:pub/d" pkgC7).2.2.1 (by decide)
      (Or.inl rfl), ?_⟩
  exact ((vfs_caps_gate_bypass_and_oracle "node-a" srcC7 (fun _ _ => false)
      .write "/other:pub2/d/f" "/other:pub2/d" pkgOtherC7).2.2.2.2.1
      (by decide) rfl).2 rfl

open Svc in
/-- A manifest entry requesting nothing, for the C8 counterexample. -/
def entryC8 : PackageManifestEntry :=
  ⟨"proc", "proc.wasm", .panicNone, false, none, false⟩

open Svc in
/-- C8 counterexample: for an entry requesting no messaging and no
networking, the claim says the record's caps are exactly the drive
read/write pair; `bootstrap` (state.rs lines 437–439) additionally pushes
the entry's own process id into `request_messaging`, adding a
self-messaging cap. -/
theorem bootstrap_caps_claim_counterexample :
    mkMessagingCap "node-a" ⟨"proc", "pkg", "pub"⟩ ∈
      bootstrapEntryCaps "node-a" "pkg" "pub" entryC8
        "/kernel:sys:uqbar/pkg:pub" ∧
    mkMessagingCap "node-a" ⟨"proc", "pkg", "pub"⟩ ∉
      specEntryCaps "node-a" entryC8 "/kernel:sys:uqbar/pkg:pub" ∧
    bootstrapEntryCaps "node-a" "pkg" "pub" entryC8
        "/kernel:sys:uqbar/pkg:pub" ≠
      specEntryCaps "node-a" entryC8 "/kernel:sys:uqbar/pkg:pub" := by
  have h1 : mkMessagingCap "node-a" ⟨"proc", "pkg", "pub"⟩ ∈
      bootstrapEntryCaps "node-a" "pkg" "pub" entryC8
        "/kernel:sys:uqbar/pkg:pub" := by
    decide
  have h2 : mkMessagingCap "node-a" ⟨"proc", "pkg", "pub"⟩ ∉
      specEntryCaps "node-a" entryC8 "/kernel:sys:uqbar/pkg:pub" := by
    decide
  exact ⟨h1, h2, fun he => h2 (he ▸ h1)⟩

open Svc in
/-- C8 amended: the capability set `bootstrap` inserts for a manifest entry
is exactly the manifest's declared caps (messaging to each process named in
`request_messaging`, the network cap iff `request_networking`) plus the
package drive's read and write caps *plus a messaging capability for the
entry's own process id*, which the source appends to the requested list. -/
theorem bootstrap_caps_amended (ourName packageName packagePublisher : String)
    (entry : PackageManifestEntry) (drivePath : String) :
    bootstrapEntryCaps ourName packageName packagePublisher entry drivePath =
      specEntryCaps ourName entry drivePath ∪
        {mkMessagingCap ourName (ProcessId.fromStrD
          (entry.processName ++ ":" ++ packageName ++ ":" ++
            packagePublisher))} := by
  simp only [bootstrapEntryCaps, specEntryCaps]
  rw [List.map_append, List.toFinset_append, List.map_cons, List.map_nil,
    List.toFinset_cons, List.toFinset_nil, insert_emptyc_eq]
  cases hn : entry.requestNetworking <;>
    · ext x
      simp [hn, -List.mem_toFinset]
      tauto

open Svc in
/-- Request envelope sent to the state service asking `DeleteState(pid)`. -/
def deleteKM (id : Nat) (source target : Address) (rsvp : Option Address)
    (inh : Bool) (expects : Option Nat) (pid : ProcessId)
    (metadata : Option String) (payload : Option Payload)
    (sigcaps : Option (List (Capability × Sig))) : SvcKernelMessage :=
  ⟨id, source, target, rsvp,
    .request ⟨inh, expects, .stateAction (.deleteState pid), metadata⟩,
    payload, sigcaps⟩

open Svc in
/-- C9: `DeleteState` always succeeds — for *every* store, whether or not a
value is present under `hash(pid)`, the handler returns the successful
`DeleteState` response (an error, in particular `NotFound`, is never
produced) and the key is simply absent afterwards. -/
theorem delete_state_idempotent_success (ourName : String) (db : Store)
    (pid : ProcessId) (id : Nat) (source target : Address)
    (rsvp : Option Address) (inh : Bool) (expects : Option Nat)
    (metadata : Option String) (payload : Option Payload)
    (sigcaps : Option (List (Capability × Sig))) :
    stateHandleRequest ourName
        (deleteKM id source target rsvp inh expects pid metadata payload
          sigcaps) db =
      .ok ⟨storeErase db (toHash pid),
           stateResponseFor ourName
             (deleteKM id source target rsvp inh expects pid metadata
               payload sigcaps) expects metadata
             (.stateResponse .deleteState) none,
           false⟩ ∧
    storeGet (storeErase db (toHash pid)) (toHash pid) = none := by
  constructor
  · rfl
  · have h : ∀ (l : Store),
        (l.filter (fun e => e.1 != toHash pid)).find?
          (fun e => e.1 == toHash pid) = none := by
      intro l
      induction l with
      | nil => rfl
      | cons e l ih =>
        by_cases he : e.1 = toHash pid
        · simp only [List.filter_cons]
          simp [he, ih]
        · simp only [List.filter_cons]
          simp [List.find?_cons, he, ih]
    simp [storeGet, storeErase, h]

open Svc in
/-- C10: foreign-origin envelopes are silently discarded by both services —
for any message whose source node differs from the local node name, one
turn of the `state_sender` loop leaves the store untouched, sends nothing,
and only logs; one turn of the `vfs` loop leaves the per-source queues
untouched, spawns no handler, and only logs. -/
theorem foreign_messages_silently_dropped (ourName : String)
    (km : SvcKernelMessage) (db : Store)
    (queues : List (ProcessId × List SvcKernelMessage))
    (h : km.source.node ≠ ourName) :
    stateSenderStep ourName km db =
      ⟨db, [], [stateForeignLog], false⟩ ∧
    vfsLoopStep ourName queues km = ⟨queues, false, [vfsForeignLog]⟩ := by
  have h' : ourName ≠ km.source.node := fun c => h c.symm
  constructor
  · simp [stateSenderStep, h']
  · simp [vfsLoopStep, h']

open Svc in
/-- A foreign-origin envelope for the C10 witness. -/
def kmForeignC10 : SvcKernelMessage :=
  ⟨21, ⟨"node-z", ⟨"a", "b", "c"⟩⟩, ⟨"node-a", stateProcessId⟩, none,
    .request ⟨false, some 5, .stateAction .backup, none⟩, none, none⟩

open Svc in
/-- C10 witness: the concrete foreign envelope is dropped by both loops with
only a log line. -/
theorem foreign_messages_silently_dropped_witness :
    stateSenderStep "node-a" kmForeignC10 [("k", [1])] =
      ⟨[("k", [1])], [], [stateForeignLog], false⟩ ∧
    vfsLoopStep "node-a" [] kmForeignC10 = ⟨[], false, [vfsForeignLog]⟩ :=
  foreign_messages_silently_dropped "node-a" kmForeignC10 [("k", [1])] []
    (by decide)
